import Mathlib

/-!
Verification of the pagination, caching and incremental-load engine of the
`astro-loader-hashnode` repository, as a shallow embedding in Lean.

Each definition mirrors one source function:
* `paginateRun` / `flattenPaginatedResults` — `paginateResults` and
  `flattenPaginatedResults` in `src/loaders/base.ts`.  The async generator is
  modelled as a fuel-indexed loop returning every emitted batch together with
  the number of page-fetch calls and whether the loop reached one of its `break`
  statements (`finished = true`) rather than running out of fuel.  The
  JavaScript truthiness test `maxItems && ...` on the optional cap is modelled
  by `(maxItems.getD 0) ≠ 0`: both `undefined` and `0` are falsy.
* `RequestCache` — the in-memory TTL cache of the API client.
* `runQuery` / `classifyResponse` — `HashnodeClient.query`'s cache read-through
  and response validation.
* `loadModel` / `processItem` — `BaseHashnodeLoader.load` / `processItem`.
* `searchFetchData` and its helpers — the `SearchLoader`'s multi-term
  aggregation (per-term pagination, per-term error isolation, Map-based
  deduplication, relevance sort, global cap).
* `baseGenerateId`, `postsGenerateId`, `draftsGenerateId` — the id-generation
  policies of the base, posts and drafts loaders, with JavaScript `||`
  falsiness (`undefined` and `""` both falsy) modelled by `jsOrStr`.
-/

/-- `pageInfo` of a paginated GraphQL response (`base.ts`). -/
structure PageInfo where
  hasNextPage : Bool
  endCursor : Option String
deriving DecidableEq, Repr

/-- One page produced by a page-fetch callback (`base.ts`, `paginateResults`). -/
structure Page (α : Type) where
  items : List α
  pageInfo : PageInfo
deriving DecidableEq, Repr

/-- Result of driving the `paginateResults` generator: the emitted batches, the
number of page-fetch calls made, and whether the loop terminated by itself
(`finished = true`) or the fuel ran out mid-loop. -/
structure RunResult (α : Type) where
  batches : List (List α)
  calls : Nat
  finished : Bool
deriving DecidableEq, Repr

/-- The `itemsToYield` computation of `paginateResults` (`base.ts` lines
321-325): truncate the page to `maxItems - totalFetched` items when the cap is
truthy and would be exceeded. -/
def itemsToYieldOf {α : Type} (m t : Nat) (items : List α) : List α :=
  if m ≠ 0 ∧ m < t + items.length then items.take (m - t) else items

/-- Shallow embedding of `paginateResults` (`src/loaders/base.ts`).  The
page-fetch callback is a pure function of the cursor (the spec requires it to
be idempotent per cursor).  `maxItems = none` is an unset cap; the JS test
`maxItems && ...` is falsy for both `undefined` and `0`, hence the
`maxItems.getD 0 ≠ 0` guards. -/
def paginateRun {α : Type} (fetchPage : Option String → Page α)
    (maxItems : Option Nat) : Nat → Option String → Nat → RunResult α
  | 0, _, _ => ⟨[], 0, false⟩
  | fuel + 1, cursor, totalFetched =>
    let page := fetchPage cursor
    let m := maxItems.getD 0
    if page.items.isEmpty then ⟨[], 1, true⟩
    else
      let itemsToYield := itemsToYieldOf m totalFetched page.items
      let newTotal := totalFetched + itemsToYield.length
      if page.pageInfo.hasNextPage = false ∨ (m ≠ 0 ∧ m ≤ newTotal) then
        ⟨[itemsToYield], 1, true⟩
      else
        let rest := paginateRun fetchPage maxItems fuel page.pageInfo.endCursor newTotal
        ⟨itemsToYield :: rest.batches, rest.calls + 1, rest.finished⟩

/-- Shallow embedding of `flattenPaginatedResults` (`src/loaders/base.ts`):
drains the emitted batches into one ordered list. -/
def flattenPaginatedResults {α : Type} (batches : List (List α)) : List α :=
  batches.flatten

/-- Checks that every emitted batch carries at most the remaining cap
allowance `N - alreadyEmitted`. -/
def allowanceChk {α : Type} (N : Nat) : Nat → List (List α) → Bool
  | _, [] => true
  | t, b :: bs => decide (b.length ≤ N - t) && allowanceChk N (t + b.length) bs

/-- A page-fetch callback returning pages of 3 items indefinitely with
`hasNextPage: true` (the example of spec §8). -/
def pagesOfThree : Option String → Page Nat :=
  fun _ => ⟨[0, 1, 2], ⟨true, some ("next")⟩⟩

/-- A page-fetch callback returning `{items: [1,2], hasNextPage: true}` on the
first call and `{items: [], hasNextPage: true}` afterwards (spec §8). -/
def emptySecondPageFetch : Option String → Page Nat :=
  fun cursor =>
    match cursor with
    | none => ⟨[1, 2], ⟨true, some ("c1")⟩⟩
    | some _ => ⟨[], ⟨true, none⟩⟩

/-- A page-fetch callback whose every page is empty (but claims a next page). -/
def alwaysEmptyFetch : Option String → Page Nat :=
  fun _ => ⟨[], ⟨true, none⟩⟩

/-- A page-fetch callback with two pages, `[1,2]` then `[3,4]`, exhausting
after the second page. -/
def twoPagesFetch : Option String → Page Nat :=
  fun cursor =>
    match cursor with
    | none => ⟨[1, 2], ⟨true, some ("p2")⟩⟩
    | some _ => ⟨[3, 4], ⟨false, none⟩⟩

/-- Wrap an integer to a signed 32-bit value, as JavaScript's `| 0` /
`ToInt32` coercion does (used by `hash & hash` and `<<` in `simpleHash`). -/
def toInt32 (n : Int) : Int := (n + 2147483648) % 4294967296 - 2147483648

/-- One step of the JS hash loop `hash = (hash << 5) - hash + char; hash &= hash`
(`simpleHash` in the client, `calculateDigest` in `base.ts`). -/
def hashStep (h : Int) (c : Nat) : Int := toInt32 (toInt32 (h * 32) - h + c)

/-- Digit characters of JavaScript's `Number.prototype.toString(36)`. -/
def base36Digit (n : Nat) : Char :=
  if n < 10 then Char.ofNat (48 + n) else Char.ofNat (87 + n)

def toBase36Go (n : Nat) (acc : List Char) : List Char :=
  if h : n = 0 then acc
  else toBase36Go (n / 36) (base36Digit (n % 36) :: acc)
termination_by n
decreasing_by exact Nat.div_lt_self (Nat.pos_of_ne_zero h) (by norm_num)

/-- `Math.abs(hash).toString(36)`'s base-36 rendering. -/
def toBase36 (n : Nat) : String :=
  if n = 0 then "0" else String.mk (toBase36Go n [])

/-- `simpleHash` of the Hashnode client (and, identically, `calculateDigest` /
the drafts loader's hash): the 32-bit rolling hash of the string's code units
rendered in base 36.  Characters are taken as Unicode scalar values; for the
BMP strings involved this coincides with JS's UTF-16 `charCodeAt`. -/
def simpleHash (s : String) : String :=
  toBase36 (Int.natAbs (s.toList.foldl (fun h ch => hashStep h ch.toNat) 0))

/-- JavaScript `Map.prototype.set` on an association list: overwrite in place
when the key is present (keeping its original insertion position), append
otherwise. -/
def jsMapInsert {β : Type} (m : List (String × β)) (k : String) (v : β) :
    List (String × β) :=
  if m.any (fun p => p.1 == k) then
    m.map (fun p => if p.1 == k then (k, v) else p)
  else m ++ [(k, v)]

/-- A cache entry of `RequestCache` (`client.ts`): payload, creation instant
(ms), and TTL (seconds). -/
structure CacheEntry (α : Type) where
  data : α
  timestamp : Int
  ttl : Int
deriving DecidableEq, Repr

/-- The client's in-memory `RequestCache`, its `Map` modelled as an
association list in insertion order. -/
structure RequestCache (α : Type) where
  entries : List (String × CacheEntry α)
deriving DecidableEq, Repr

/-- `RequestCache.get`: absent keys and stale entries (age strictly greater
than `ttl * 1000` ms) yield `none`; a stale entry is deleted at lookup time.
`Date.now()` is passed in as `now`.  Returns the value and the
possibly-updated cache. -/
def RequestCache.get {α : Type} (c : RequestCache α) (key : String) (now : Int) :
    Option α × RequestCache α :=
  match c.entries.find? (fun p => p.1 == key) with
  | none => (none, c)
  | some p =>
    if p.2.ttl * 1000 < now - p.2.timestamp then
      (none, ⟨c.entries.eraseP (fun q => q.1 == key)⟩)
    else (some p.2.data, c)

/-- `RequestCache.set`: unconditionally overwrite, stamping the current time. -/
def RequestCache.set {α : Type} (c : RequestCache α) (key : String) (data : α)
    (ttl : Int) (now : Int) : RequestCache α :=
  ⟨jsMapInsert c.entries key ⟨data, now, ttl⟩⟩

/-- The error kinds thrown by `HashnodeClient.query`'s response validation. -/
inductive QueryError where
  | httpError (status : Nat) (statusText : String)
  | graphQLError (message : String)
  | protocolError (message : String)
deriving DecidableEq, Repr

/-- An HTTP response as `query` sees it: `response.ok`/status plus the parsed
GraphQL body (`data` payload and top-level `errors` list; an absent `errors`
field and an empty list are indistinguishable to the `errors.length > 0`
test and are both modelled by `[]`). -/
structure HttpResponse (α : Type) where
  ok : Bool
  status : Nat
  statusText : String
  data : Option α
  errors : List String
deriving DecidableEq, Repr

/-- The response-validation chain of `HashnodeClient.query` (`client.ts`):
non-2xx → `httpError` with status and text; a non-empty top-level errors
list (even with HTTP 200) → `graphQLError` with the comma-joined messages;
no data and no errors → `protocolError`; otherwise the data payload. -/
def classifyResponse {α : Type} (resp : HttpResponse α) : Except QueryError α :=
  if resp.ok = false then
    Except.error (QueryError.httpError resp.status resp.statusText)
  else if resp.errors.isEmpty = false then
    Except.error (QueryError.graphQLError
      ("GraphQL errors: " ++ String.intercalate (", ") resp.errors))
  else
    match resp.data with
    | none => Except.error (QueryError.protocolError
        ("No data returned from GraphQL query"))
    | some d => Except.ok d

/-- The client configuration relevant to `query` (host, cache flag, TTL). -/
structure ClientCfg where
  publicationHost : String
  cacheEnabled : Bool
  cacheTTL : Int
deriving DecidableEq, Repr

/-- `HashnodeClient.getCacheKey`: host-namespaced `simpleHash` of the query
text concatenated with the serialized variables (the serialized form is
passed in directly). -/
def getCacheKey (cfg : ClientCfg) (query vars : String) : String :=
  cfg.publicationHost ++ (":") ++ simpleHash (query ++ vars)

/-- The mutable state of one client instance: its cache and (for the
theorems) how many network fetches it has performed. -/
structure ClientState (α : Type) where
  cache : RequestCache α
  fetchCount : Nat
deriving DecidableEq, Repr

/-- One `HashnodeClient.query` call.  The network is modelled by the response
`resp` the (deterministic) server would give to this query.  Mirrors
`client.ts`: with caching enabled the cache is consulted first and a hit
returns without any fetch; otherwise the response is fetched, validated by
`classifyResponse`, and a successful payload is cached under the same key
with the configured TTL. -/
def runQuery {α : Type} (cfg : ClientCfg) (resp : HttpResponse α)
    (q vars : String) (now : Int) (st : ClientState α) :
    Except QueryError α × ClientState α :=
  if cfg.cacheEnabled then
    match RequestCache.get st.cache (getCacheKey cfg q vars) now with
    | (some d, c) => (Except.ok d, ⟨c, st.fetchCount⟩)
    | (none, c) =>
      match classifyResponse resp with
      | Except.ok d =>
        (Except.ok d,
          ⟨RequestCache.set c (getCacheKey cfg q vars) d cfg.cacheTTL now,
            st.fetchCount + 1⟩)
      | Except.error e => (Except.error e, ⟨c, st.fetchCount + 1⟩)
  else
    match classifyResponse resp with
    | Except.ok d => (Except.ok d, ⟨st.cache, st.fetchCount + 1⟩)
    | Except.error e => (Except.error e, ⟨st.cache, st.fetchCount + 1⟩)

/-- Log severities used by the loader (`logger.info` / `warn` / `error`). -/
inductive LogLevel where
  | info
  | warn
  | error
deriving DecidableEq, Repr

/-- The item-level error kinds of the base loader (`LoaderError` with codes
`VALIDATION_ERROR` and `PROCESS_ERROR`). -/
inductive ItemError where
  | validationError (message : String)
  | processError (message : String)
deriving DecidableEq, Repr

/-- The `LoaderError.message` strings built by `validateData` and
`processItem` in `base.ts`. -/
def ItemError.message : ItemError → String
  | ItemError.validationError m => "Data validation failed: " ++ m
  | ItemError.processError m => "Failed to process item: " ++ m

/-- `BaseHashnodeLoader.processItem` (`base.ts` lines 159-188): transform the
raw item (a thrown transform error becomes a `processError` result), validate
it (a schema failure becomes a `validationError` result), and on success
return the generated id together with the validated payload.  (The source
spreads `validation.data` over `{id: generateId(item)}`, so a validated `id`
field would take precedence in the stored record; no claim here depends on
that precedence, and the payload is kept opaque.) -/
def processItem {Raw Val : Type} (transformItem : Raw → Except String Val)
    (validate : Val → Except String Val) (generateIdOf : Raw → String)
    (item : Raw) : Except ItemError (String × Val) :=
  match transformItem item with
  | Except.error m => Except.error (ItemError.processError m)
  | Except.ok transformed =>
    match validate transformed with
    | Except.error m => Except.error (ItemError.validationError m)
    | Except.ok validated => Except.ok (generateIdOf item, validated)

/-- Outcome of one `load(context)` cycle: whether the top-level fetch failed
fatally, the progress counters of the item loop, the payloads handed to
`store.set`, and the log lines emitted. -/
structure LoadReport (Val : Type) where
  fatalFetch : Bool
  processedCount : Nat
  skippedCount : Nat
  errorCount : Nat
  stored : List Val
  logs : List (LogLevel × String)
deriving DecidableEq, Repr

/-- `BaseHashnodeLoader.load` (`base.ts` lines 193-272).  `fetchRes` is the
outcome of `fetchData()` as wrapped by `safeFetch` (an exception becomes an
error message).  A fetch failure is logged and ends the cycle with zero items
processed and nothing stored; otherwise each item runs through `processItem`
(failures are logged as warnings and counted in `errorCount`, continuing with
the next item) and successful items are handed to `store.set`, whose boolean
distinguishes processed from digest-skipped.  `parseData` and the digest are
host collaborators modelled as total (spec §1/§6), so the embedded `load`
returns normally on every input except through no path at all — the only
fatal path is the fetch failure, which is returned, not thrown. -/
def loadModel {Raw Val : Type} (collection : String)
    (transformItem : Raw → Except String Val)
    (validate : Val → Except String Val) (generateIdOf : Raw → String)
    (storeSet : String → Val → Bool)
    (fetchRes : Except String (List Raw)) : LoadReport Val :=
  let logs0 := [(LogLevel.info, "Loading " ++ collection ++ " from Hashnode...")]
  match fetchRes with
  | Except.error msg =>
    ⟨true, 0, 0, 0, [],
      logs0 ++ [(LogLevel.error,
        "Failed to fetch " ++ collection ++ ": Failed to fetch data: " ++ msg)]⟩
  | Except.ok items =>
    let start : LoadReport Val :=
      ⟨false, 0, 0, 0, [],
        logs0 ++ [(LogLevel.info,
          "Fetched " ++ toString items.length ++ " items from Hashnode")]⟩
    let r := items.foldl (fun acc item =>
      match processItem transformItem validate generateIdOf item with
      | Except.error e =>
        { acc with
            errorCount := acc.errorCount + 1,
            logs := acc.logs ++ [(LogLevel.warn,
              "Skipping item due to error: " ++ e.message)] }
      | Except.ok pv =>
        if storeSet pv.1 pv.2 then
          { acc with
              processedCount := acc.processedCount + 1,
              stored := acc.stored ++ [pv.2] }
        else { acc with skippedCount := acc.skippedCount + 1 }) start
    { r with logs := r.logs ++ [(LogLevel.info,
        collection ++ " loading complete: " ++ toString r.processedCount
          ++ " processed, " ++ toString r.skippedCount ++ " skipped, "
          ++ toString r.errorCount ++ " errors")] }

/-- The fields of a raw content item consulted by the id-generation policies
(absent JS fields are `none`). -/
structure RawContentItem where
  id : Option String
  cuid : Option String
  slug : Option String
  title : Option String
  updatedAt : Option String
deriving DecidableEq, Repr

/-- JS truthiness of an optional string: `undefined` and `""` are falsy. -/
def jsTruthy : Option String → Bool
  | none => false
  | some s => s != ""

/-- JavaScript `a || b` on optional strings: `a` when truthy, else `b`
(the last operand is returned as-is, falsy or not). -/
def jsOrStr (a b : Option String) : Option String :=
  if jsTruthy a then a else b

/-- `BaseHashnodeLoader.generateId` (`base.ts` lines 111-114):
`obj.id || obj.cuid || obj.slug` — `undefined` when all three are falsy. -/
def baseGenerateId (item : RawContentItem) : Option String :=
  jsOrStr item.id (jsOrStr item.cuid item.slug)

/-- `PostsLoader.generateId` (`posts.ts`): `post.slug || post.cuid || post.id`. -/
def postsGenerateId (post : RawContentItem) : Option String :=
  jsOrStr post.slug (jsOrStr post.cuid post.id)

/-- `DraftsLoader.generateId` (`drafts.ts`): `draft.id || draft.cuid ||
draft.slug` prefixed with `draft-` when truthy, otherwise the `simpleHash` of
`` `${title}-${updatedAt}` `` with fallbacks `'untitled'` and the current ISO
timestamp (passed in as `nowIso`). -/
def draftsGenerateId (draft : RawContentItem) (nowIso : String) : String :=
  let idc := jsOrStr draft.id (jsOrStr draft.cuid draft.slug)
  if jsTruthy idc then "draft-" ++ idc.getD ""
  else
    "draft-" ++ simpleHash
      ((jsOrStr draft.title (some ("untitled"))).getD ""
        ++ "-" ++ (jsOrStr draft.updatedAt (some nowIso)).getD "")

/-- The post fields consulted by the search aggregator and its relevance
scoring. -/
structure SearchPost where
  id : String
  title : String
  brief : Option String
  slug : String
  reactionCount : Option Nat
  views : Option Nat
deriving DecidableEq, Repr

/-- One aggregated search hit: the underlying post plus the search term that
produced it (the `{post, searchTerm}` pairs built by the search loader). -/
structure SearchItem where
  post : SearchPost
  searchTerm : String
deriving DecidableEq, Repr

/-- Does `needle` occur as a prefix of some suffix of the second list —
i.e. as a contiguous infix. -/
def infixCheck (needle : List Char) : List Char → Bool
  | [] => needle.isEmpty
  | c :: rest => needle.isPrefixOf (c :: rest) || infixCheck needle rest

/-- `String.prototype.includes` on already-normalised strings. -/
def jsIncludes (haystack needle : String) : Bool :=
  infixCheck needle.toList haystack.toList

/-- `calculateRelevance` of the search loader: case-insensitive title match
+10, brief match +5, `min(reactions/10, 3)` and `min(views/1000, 2)` engagement
bonuses, rounded to one decimal (`Math.round(score*10)/10`, half-up).  Scores
are modelled in `ℚ`; every operation here is exact, standing in for JS's
binary floating point whose rounding could only differ negligibly and which no
claim depends on. -/
def calculateRelevance (post : SearchPost) (searchTerm : String) : ℚ :=
  let term := searchTerm.toLower
  let titleScore : ℚ := if jsIncludes post.title.toLower term then 10 else 0
  let briefScore : ℚ :=
    match post.brief with
    | some b => if jsIncludes b.toLower term then 5 else 0
    | none => 0
  let reactScore : ℚ := min (((post.reactionCount.getD 0 : Nat) : ℚ) / 10) 3
  let viewScore : ℚ := min (((post.views.getD 0 : Nat) : ℚ) / 1000) 2
  (⌊(titleScore + briefScore + reactScore + viewScore) * 10 + 1 / 2⌋ : ℤ) / 10

/-- `new Map(pairs)` built by `Map.prototype.set` steps: the association list
in first-insertion order with last-written values. -/
def jsMapCollapse {β : Type} (pairs : List (String × β)) : List (String × β) :=
  pairs.foldl (fun m p => jsMapInsert m p.1 p.2) []

/-- The deduplication step of `SearchLoader.fetchData`:
`Array.from(new Map(allResults.map(r => [r.post.id, r])).values())`. -/
def searchDedup (results : List SearchItem) : List SearchItem :=
  (jsMapCollapse (results.map (fun r => (r.post.id, r)))).map (fun p => p.2)

/-- Stable insertion keeping the list sorted by relevance, descending: the
element is placed after every existing element of equal or higher score.
Folded over the list this yields exactly what any stable sort (such as the
runtime's) produces under the comparator `(a, b) => relB - relA`. -/
def insertByRelevance (x : SearchItem) : List SearchItem → List SearchItem
  | [] => [x]
  | y :: ys =>
    if calculateRelevance y.post y.searchTerm < calculateRelevance x.post x.searchTerm
    then x :: y :: ys
    else y :: insertByRelevance x ys

/-- The `sort` step of `SearchLoader.fetchData` (descending relevance). -/
def sortByRelevance (l : List SearchItem) : List SearchItem :=
  l.foldl (fun acc x => insertByRelevance x acc) []

/-- Fallible variant of `paginateRun` for the search loader, where a page
fetch may reject: the generator's pending exception propagates out of
`flattenPaginatedResults` to the caller. -/
def paginateRunE {α : Type} (fetchPage : Option String → Except String (Page α))
    (maxItems : Option Nat) : Nat → Option String → Nat → Except String (RunResult α)
  | 0, _, _ => Except.ok ⟨[], 0, false⟩
  | fuel + 1, cursor, totalFetched =>
    match fetchPage cursor with
    | Except.error e => Except.error e
    | Except.ok page =>
      let m := maxItems.getD 0
      if page.items.isEmpty then Except.ok ⟨[], 1, true⟩
      else
        let itemsToYield := itemsToYieldOf m totalFetched page.items
        let newTotal := totalFetched + itemsToYield.length
        if page.pageInfo.hasNextPage = false ∨ (m ≠ 0 ∧ m ≤ newTotal) then
          Except.ok ⟨[itemsToYield], 1, true⟩
        else
          match paginateRunE fetchPage maxItems fuel page.pageInfo.endCursor newTotal with
          | Except.error e => Except.error e
          | Except.ok rest => Except.ok ⟨itemsToYield :: rest.batches, rest.calls + 1, rest.finished⟩

/-- `SearchLoader.fetchData`: an empty term list short-circuits; each term is
paginated (capped at `min(maxResults, 100)` per term, `maxResults` defaulting
to 50) with a per-term catch that drops the failing term's contribution; the
merged list is deduplicated by post id through a JS `Map`, sorted by
relevance descending, and truncated to `maxResults` when truthy.  `server`
models `client.searchPosts` for a given term and cursor. -/
def searchFetchData
    (server : String → Option String → Except String (Page SearchPost))
    (searchTerms : List String) (maxResults : Option Nat) (fuel : Nat) :
    List SearchItem :=
  if searchTerms.isEmpty then []
  else
    let maxR := maxResults.getD 50
    let allResults := searchTerms.foldl (fun acc term =>
      match paginateRunE (fun cursor =>
          (server term cursor).map (fun page =>
            ({ items := page.items.map (fun post => SearchItem.mk post term),
               pageInfo := page.pageInfo } : Page SearchItem)))
          (some (min maxR 100)) fuel none 0 with
      | Except.error _ => acc
      | Except.ok run => acc ++ flattenPaginatedResults run.batches) []
    let sorted := sortByRelevance (searchDedup allResults)
    if maxR ≠ 0 then sorted.take maxR else sorted

/-- A single post titled "Banana Guide" with id `p1`. -/
def bananaPost : SearchPost :=
  ⟨("p1"), ("Banana Guide"), some ("About bananas"), ("banana-guide"), some 0, some 0⟩

/-- A search backend returning that one post for every term, in one page. -/
def bananaServer : String → Option String → Except String (Page SearchPost) :=
  fun _ _ => Except.ok ⟨[bananaPost], ⟨false, none⟩⟩

example :
    paginateRun pagesOfThree (some 5) 8 none 0 =
      ⟨[[0, 1, 2], [0, 1]], 2, true⟩ := by decide

example :
    paginateRun emptySecondPageFetch none 8 none 0 = ⟨[[1, 2]], 2, true⟩ := by
  decide

/-- With an unset (or zero, hence falsy) cap the truncation branch is dead. -/
theorem itemsToYieldOf_zero {α : Type} (t : Nat) (items : List α) :
    itemsToYieldOf 0 t items = items := by
  simp [itemsToYieldOf]

theorem itemsToYieldOf_length_trunc {α : Type} {m t : Nat} {items : List α}
    (hN : m ≠ 0) (h : m < t + items.length) :
    (itemsToYieldOf m t items).length = m - t := by
  simp only [itemsToYieldOf, if_pos (And.intro hN h), List.length_take]
  omega

theorem itemsToYieldOf_no_trunc {α : Type} {m t : Nat} {items : List α}
    (h : ¬(m ≠ 0 ∧ m < t + items.length)) : itemsToYieldOf m t items = items := by
  simp only [itemsToYieldOf, if_neg h]

/-- Step lemma: one iteration of the uncapped loop (`maxItems` unset:
`maxItems && ...` is falsy, so no truncation and no cap-based stop). -/
theorem paginateRun_none_succ {α : Type} (fetchPage : Option String → Page α)
    (n : Nat) (cursor : Option String) (t : Nat) :
    paginateRun fetchPage none (n + 1) cursor t =
      if (fetchPage cursor).items.isEmpty then ⟨[], 1, true⟩
      else if (fetchPage cursor).pageInfo.hasNextPage = false then
        ⟨[(fetchPage cursor).items], 1, true⟩
      else
        ⟨(fetchPage cursor).items ::
            (paginateRun fetchPage none n (fetchPage cursor).pageInfo.endCursor
              (t + (fetchPage cursor).items.length)).batches,
          (paginateRun fetchPage none n (fetchPage cursor).pageInfo.endCursor
            (t + (fetchPage cursor).items.length)).calls + 1,
          (paginateRun fetchPage none n (fetchPage cursor).pageInfo.endCursor
            (t + (fetchPage cursor).items.length)).finished⟩ := by
  by_cases hE : (fetchPage cursor).items.isEmpty
  · simp [paginateRun, hE]
  · by_cases hNext : (fetchPage cursor).pageInfo.hasNextPage = false
    · simp [paginateRun, hE, hNext, itemsToYieldOf_zero]
    · simp [paginateRun, hE, hNext, itemsToYieldOf_zero]

/-- Step lemma: one iteration of the capped loop with a truthy cap `N ≠ 0`. -/
theorem paginateRun_some_succ {α : Type} (fetchPage : Option String → Page α)
    {N : Nat} (hN : N ≠ 0) (n : Nat) (cursor : Option String) (t : Nat) :
    paginateRun fetchPage (some N) (n + 1) cursor t =
      if (fetchPage cursor).items.isEmpty then ⟨[], 1, true⟩
      else if (fetchPage cursor).pageInfo.hasNextPage = false ∨
          N ≤ t + (itemsToYieldOf N t (fetchPage cursor).items).length then
        ⟨[itemsToYieldOf N t (fetchPage cursor).items], 1, true⟩
      else
        ⟨itemsToYieldOf N t (fetchPage cursor).items ::
            (paginateRun fetchPage (some N) n (fetchPage cursor).pageInfo.endCursor
              (t + (itemsToYieldOf N t (fetchPage cursor).items).length)).batches,
          (paginateRun fetchPage (some N) n (fetchPage cursor).pageInfo.endCursor
            (t + (itemsToYieldOf N t (fetchPage cursor).items).length)).calls + 1,
          (paginateRun fetchPage (some N) n (fetchPage cursor).pageInfo.endCursor
            (t + (itemsToYieldOf N t (fetchPage cursor).items).length)).finished⟩ := by
  by_cases hE : (fetchPage cursor).items.isEmpty
  · simp [paginateRun, hE]
  · by_cases hstop : (fetchPage cursor).pageInfo.hasNextPage = false ∨
        N ≤ t + (itemsToYieldOf N t (fetchPage cursor).items).length
    · have hstop' : (fetchPage cursor).pageInfo.hasNextPage = false ∨
          (N ≠ 0 ∧ N ≤ t + (itemsToYieldOf N t (fetchPage cursor).items).length) := by
        tauto
      simp [paginateRun, hE, if_pos hstop', hstop]
    · have hstop' : ¬((fetchPage cursor).pageInfo.hasNextPage = false ∨
          (N ≠ 0 ∧ N ≤ t + (itemsToYieldOf N t (fetchPage cursor).items).length)) := by
        tauto
      simp [paginateRun, hE, if_neg hstop', hstop]

/-- Every batch emitted by a capped run respects the remaining cap allowance:
the batch at position `i` has length at most `N` minus the items emitted by
batches `0..i-1`. -/
theorem allowanceChk_paginateRun {α : Type} (fetchPage : Option String → Page α)
    (N : Nat) :
    ∀ fuel cursor t, t < N →
      allowanceChk N t (paginateRun fetchPage (some N) fuel cursor t).batches = true := by
  intro fuel
  induction fuel with
  | zero => intro cursor t _; rfl
  | succ n ih =>
    intro cursor t ht
    have hN : N ≠ 0 := by omega
    rw [paginateRun_some_succ fetchPage hN]
    by_cases hE : (fetchPage cursor).items.isEmpty
    · simp [hE, allowanceChk]
    · simp only [hE, if_false]
      have hyLen : (itemsToYieldOf N t (fetchPage cursor).items).length ≤ N - t := by
        by_cases hTr : N < t + (fetchPage cursor).items.length
        · rw [itemsToYieldOf_length_trunc hN hTr]
        · rw [itemsToYieldOf_no_trunc (by tauto)]
          omega
      by_cases hstop : (fetchPage cursor).pageInfo.hasNextPage = false ∨
          N ≤ t + (itemsToYieldOf N t (fetchPage cursor).items).length
      · simp only [if_pos hstop, allowanceChk, Bool.and_eq_true, decide_eq_true_eq]
        exact ⟨hyLen, trivial⟩
      · simp only [if_neg hstop, allowanceChk, Bool.and_eq_true, decide_eq_true_eq]
      
        have hlt : t + (itemsToYieldOf N t (fetchPage cursor).items).length < N := by
          rcases not_or.mp hstop with ⟨_, h2⟩
          omega
        exact ⟨hyLen, ih _ _ hlt⟩

theorem RunResult.batches_mk {α : Type} (b : List (List α)) (c : Nat) (f : Bool) :
    (RunResult.mk b c f).batches = b := rfl

theorem RunResult.calls_mk {α : Type} (b : List (List α)) (c : Nat) (f : Bool) :
    (RunResult.mk b c f).calls = c := rfl

theorem RunResult.finished_mk {α : Type} (b : List (List α)) (c : Nat) (f : Bool) :
    (RunResult.mk b c f).finished = f := rfl

/-- A capped run terminates whenever the uncapped run does, and flattens to
exactly `min (N - t)` of the uncapped total, where `t` is the progress made so
far. -/
theorem paginateRun_capped_vs_uncapped {α : Type}
    (fetchPage : Option String → Page α) (N : Nat) (hN : N ≠ 0) :
    ∀ fuel cursor t, t < N →
      (paginateRun fetchPage none fuel cursor t).finished = true →
      (paginateRun fetchPage (some N) fuel cursor t).finished = true ∧
      (paginateRun fetchPage (some N) fuel cursor t).batches.flatten.length
        = min (N - t) (paginateRun fetchPage none fuel cursor t).batches.flatten.length := by
  intro fuel
  induction fuel with
  | zero =>
    intro cursor t _ hf
    exact absurd hf (by simp [paginateRun])
  | succ n ih =>
    intro cursor t ht hf
    rw [paginateRun_none_succ] at hf ⊢
    rw [paginateRun_some_succ fetchPage hN]
    by_cases hE : (fetchPage cursor).items.isEmpty
    · simp only [if_pos hE, RunResult.batches_mk, RunResult.finished_mk]
      simp
    · simp only [if_neg hE] at hf ⊢
      by_cases hNext : (fetchPage cursor).pageInfo.hasNextPage = false
      · -- final page: both runs stop here
        simp only [if_pos hNext, if_pos (Or.inl hNext : _ ∨
            N ≤ t + (itemsToYieldOf N t (fetchPage cursor).items).length),
          RunResult.batches_mk, RunResult.finished_mk]
        refine ⟨trivial, ?_⟩
        simp only [List.flatten_cons, List.flatten_nil, List.append_nil]
        by_cases hTr : N < t + (fetchPage cursor).items.length
        · rw [itemsToYieldOf_length_trunc hN hTr, Nat.min_eq_left (by omega)]
        · rw [itemsToYieldOf_no_trunc (by tauto), Nat.min_eq_right (by omega)]
      · -- the server reports a further page: the uncapped run recurses
        simp only [if_neg hNext, RunResult.finished_mk] at hf
        simp only [if_neg hNext, RunResult.batches_mk, RunResult.finished_mk]
        by_cases hTr : N < t + (fetchPage cursor).items.length
        · have hlen := itemsToYieldOf_length_trunc hN hTr
          have hstop : (fetchPage cursor).pageInfo.hasNextPage = false ∨
              N ≤ t + (itemsToYieldOf N t (fetchPage cursor).items).length := by
            right; omega
          simp only [if_pos hstop, RunResult.batches_mk, RunResult.finished_mk]
          refine ⟨trivial, ?_⟩
          simp only [List.flatten_cons, List.flatten_nil, List.append_nil,
            List.length_append, hlen]
          rw [Nat.min_eq_left (by omega)]
        · have hy : itemsToYieldOf N t (fetchPage cursor).items = (fetchPage cursor).items :=
            itemsToYieldOf_no_trunc (by tauto)
          rw [hy]
          by_cases hEq : N ≤ t + (fetchPage cursor).items.length
          · have hstop : (fetchPage cursor).pageInfo.hasNextPage = false ∨
                N ≤ t + (fetchPage cursor).items.length := Or.inr hEq
            simp only [if_pos hstop, RunResult.batches_mk, RunResult.finished_mk]
            refine ⟨trivial, ?_⟩
            simp only [List.flatten_cons, List.flatten_nil, List.append_nil,
              List.length_append]
            rw [Nat.min_eq_left (by omega)]
            omega
          · have hcont : ¬((fetchPage cursor).pageInfo.hasNextPage = false ∨
                N ≤ t + (fetchPage cursor).items.length) := by
              tauto
            simp only [if_neg hcont, RunResult.batches_mk, RunResult.finished_mk]
            obtain ⟨ihF, ihL⟩ := ih (fetchPage cursor).pageInfo.endCursor
              (t + (fetchPage cursor).items.length) (by omega) hf
            refine ⟨ihF, ?_⟩
            simp only [List.flatten_cons, List.length_append, ihL]
            rcases Nat.le_total (N - (t + (fetchPage cursor).items.length))
                ((paginateRun fetchPage none n (fetchPage cursor).pageInfo.endCursor
                  (t + (fetchPage cursor).items.length)).batches.flatten.length) with h | h
            · rw [Nat.min_eq_left h, Nat.min_eq_left (by omega)]
              omega
            · rw [Nat.min_eq_right h, Nat.min_eq_right (by omega)]

/-- C1: for every page-fetch callback and every (truthy) cap `maxItems = N`,
no emitted batch ever exceeds the remaining cap allowance, and — whenever the
uncapped run terminates, so that "total available items" is defined — the
flattened capped result has length `min N total`.  Moreover the callback
returning pages of 3 items indefinitely with `hasNextPage: true`, capped at 5,
flattens to exactly 5 items with exactly 2 page-fetch calls. -/
theorem claim_c1_pagination_cap {α : Type} (fetchPage : Option String → Page α)
    (N fuel : Nat) (hN : 0 < N) :
    allowanceChk N 0 (paginateRun fetchPage (some N) fuel none 0).batches = true
    ∧ ((paginateRun fetchPage none fuel none 0).finished = true →
        (flattenPaginatedResults (paginateRun fetchPage (some N) fuel none 0).batches).length
          = min N
              (flattenPaginatedResults
                (paginateRun fetchPage none fuel none 0).batches).length)
    ∧ (flattenPaginatedResults (paginateRun pagesOfThree (some 5) 8 none 0).batches).length
        = 5
    ∧ (paginateRun pagesOfThree (some 5) 8 none 0).calls = 2 := by
  refine ⟨allowanceChk_paginateRun fetchPage N fuel none 0 hN, fun hf => ?_,
    by decide, by decide⟩
  have h := (paginateRun_capped_vs_uncapped fetchPage N (by omega) fuel none 0 hN hf).2
  simpa [flattenPaginatedResults] using h

theorem claim_c1_pagination_cap_witness :
    allowanceChk 5 0 (paginateRun pagesOfThree (some 5) 8 none 0).batches = true
    ∧ ((paginateRun pagesOfThree none 8 none 0).finished = true →
        (flattenPaginatedResults (paginateRun pagesOfThree (some 5) 8 none 0).batches).length
          = min 5
              (flattenPaginatedResults
                (paginateRun pagesOfThree none 8 none 0).batches).length)
    ∧ (flattenPaginatedResults (paginateRun pagesOfThree (some 5) 8 none 0).batches).length
        = 5
    ∧ (paginateRun pagesOfThree (some 5) 8 none 0).calls = 2 :=
  claim_c1_pagination_cap pagesOfThree 5 8 (by decide)

/-- C2: a fetched page with zero items terminates the sequence immediately
(one final call, no batch emitted), even when it reports `hasNextPage: true`;
and the callback returning `{items:[1,2], hasNextPage:true}` then
`{items:[], hasNextPage:true}` yields exactly `[1,2]` in exactly 2 calls. -/
theorem claim_c2_empty_page_stop {α : Type} (fetchPage : Option String → Page α)
    (maxItems : Option Nat) (fuel : Nat) (cursor : Option String) (t : Nat)
    (h : (fetchPage cursor).items = []) :
    paginateRun fetchPage maxItems (fuel + 1) cursor t = ⟨[], 1, true⟩
    ∧ flattenPaginatedResults (paginateRun emptySecondPageFetch none 8 none 0).batches
        = [1, 2]
    ∧ (paginateRun emptySecondPageFetch none 8 none 0).calls = 2 := by
  refine ⟨?_, by decide, by decide⟩
  simp [paginateRun, h]

theorem claim_c2_empty_page_stop_witness :
    paginateRun alwaysEmptyFetch (some 7) 4 none 0 = ⟨[], 1, true⟩
    ∧ flattenPaginatedResults (paginateRun emptySecondPageFetch none 8 none 0).batches
        = [1, 2]
    ∧ (paginateRun emptySecondPageFetch none 8 none 0).calls = 2 :=
  claim_c2_empty_page_stop alwaysEmptyFetch (some 7) 3 none 0 rfl

/-- C10 (implicit): a cap of `0` is falsy under the JS `maxItems && ...`
tests, so `maxItems = 0` disables the cap entirely — the run is identical to
the uncapped run and yields every available item until `hasNextPage: false`
or an empty page. -/
theorem claim_c10_zero_cap_disables {α : Type} (fetchPage : Option String → Page α) :
    (∀ fuel cursor t,
      paginateRun fetchPage (some 0) fuel cursor t
        = paginateRun fetchPage none fuel cursor t)
    ∧ flattenPaginatedResults (paginateRun twoPagesFetch (some 0) 8 none 0).batches
        = [1, 2, 3, 4]
    ∧ (paginateRun twoPagesFetch (some 0) 8 none 0).finished = true := by
  refine ⟨?_, by decide, by decide⟩
  intro fuel
  induction fuel with
  | zero => intro cursor t; rfl
  | succ n ih =>
    intro cursor t
    simp only [paginateRun, Option.getD_some, Option.getD_none, ih]

/-- C3: `RequestCache.get` never returns an entry whose age `now - timestamp`
strictly exceeds `ttl * 1000` ms — such an entry is deleted at lookup and the
lookup reports absent; an entry within the bound is returned unchanged. -/
theorem claim_c3_cache_ttl {α : Type} (c : RequestCache α) (key : String)
    (now : Int) (kv : String × CacheEntry α)
    (h : c.entries.find? (fun p => p.1 == key) = some kv) :
    (kv.2.ttl * 1000 < now - kv.2.timestamp →
      RequestCache.get c key now
        = (none, ⟨c.entries.eraseP (fun q => q.1 == key)⟩))
    ∧ (¬(kv.2.ttl * 1000 < now - kv.2.timestamp) →
      RequestCache.get c key now = (some kv.2.data, c)) := by
  constructor <;> intro hs <;> simp [RequestCache.get, h, hs]

theorem claim_c3_cache_ttl_witness :
    (RequestCache.get (⟨[(("k"), ⟨42, 0, 1⟩)]⟩ : RequestCache Nat) ("k") 1100
      = (none, ⟨[]⟩))
    ∧ (RequestCache.get (⟨[(("k"), ⟨42, 0, 1⟩)]⟩ : RequestCache Nat) ("k") 1000
      = (some 42, ⟨[(("k"), ⟨42, 0, 1⟩)]⟩)) := by
  constructor
  · exact ((claim_c3_cache_ttl ⟨[(("k"), ⟨42, 0, 1⟩)]⟩ ("k") 1100
      (("k"), ⟨42, 0, 1⟩) (by decide)).1 (by decide)).trans (by decide)
  · exact (claim_c3_cache_ttl ⟨[(("k"), ⟨42, 0, 1⟩)]⟩ ("k") 1000
      (("k"), ⟨42, 0, 1⟩) (by decide)).2 (by decide)

/-- C4: with caching enabled, the cache is consulted before the network and a
hit short-circuits the fetch: two `query` calls with identical query text and
variables within the TTL window perform exactly one underlying fetch and both
return the same data. -/
theorem claim_c4_cache_hit_short_circuits {α : Type} (cfg : ClientCfg)
    (resp : HttpResponse α) (d : α) (q vars : String) (now1 now2 : Int)
    (hC : cfg.cacheEnabled = true) (hOk : resp.ok = true)
    (hErr : resp.errors = []) (hD : resp.data = some d)
    (hT : now2 - now1 ≤ cfg.cacheTTL * 1000) :
    (runQuery cfg resp q vars now1 ⟨⟨[]⟩, 0⟩).1 = Except.ok d
    ∧ (runQuery cfg resp q vars now2
        (runQuery cfg resp q vars now1 ⟨⟨[]⟩, 0⟩).2).1 = Except.ok d
    ∧ (runQuery cfg resp q vars now2
        (runQuery cfg resp q vars now1 ⟨⟨[]⟩, 0⟩).2).2.fetchCount = 1 := by
  have hclass : classifyResponse resp = Except.ok d := by
    simp [classifyResponse, hOk, hErr, hD]
  have h1 : runQuery cfg resp q vars now1 ⟨⟨[]⟩, 0⟩
      = (Except.ok d,
          ⟨⟨[(getCacheKey cfg q vars, ⟨d, now1, cfg.cacheTTL⟩)]⟩, 1⟩) := by
    simp [runQuery, hC, hclass, RequestCache.get, RequestCache.set, jsMapInsert]
  have hfresh : ¬(cfg.cacheTTL * 1000 < now2 - now1) := by omega
  have hget2 : RequestCache.get
      (⟨[(getCacheKey cfg q vars, ⟨d, now1, cfg.cacheTTL⟩)]⟩ : RequestCache α)
      (getCacheKey cfg q vars) now2
      = (some d, ⟨[(getCacheKey cfg q vars, ⟨d, now1, cfg.cacheTTL⟩)]⟩) := by
    simp [RequestCache.get, List.find?, hfresh]
  refine ⟨by rw [h1], ?_, ?_⟩ <;> rw [h1] <;> simp [runQuery, hC, hget2]

theorem claim_c4_cache_hit_short_circuits_witness :
    (runQuery ⟨("h.dev"), true, 300⟩
        (⟨true, 200, ("OK"), some 7, []⟩ : HttpResponse Nat)
        ("qry") ("{}") 0 ⟨⟨[]⟩, 0⟩).1 = Except.ok 7
    ∧ (runQuery ⟨("h.dev"), true, 300⟩ ⟨true, 200, ("OK"), some 7, []⟩
        ("qry") ("{}") 1100
        (runQuery ⟨("h.dev"), true, 300⟩ ⟨true, 200, ("OK"), some 7, []⟩
          ("qry") ("{}") 0 ⟨⟨[]⟩, 0⟩).2).1 = Except.ok 7
    ∧ (runQuery ⟨("h.dev"), true, 300⟩ ⟨true, 200, ("OK"), some 7, []⟩
        ("qry") ("{}") 1100
        (runQuery ⟨("h.dev"), true, 300⟩ ⟨true, 200, ("OK"), some 7, []⟩
          ("qry") ("{}") 0 ⟨⟨[]⟩, 0⟩).2).2.fetchCount = 1 :=
  claim_c4_cache_hit_short_circuits ⟨("h.dev"), true, 300⟩
    ⟨true, 200, ("OK"), some 7, []⟩ 7 ("qry") ("{}") 0 1100
    rfl rfl rfl rfl (by decide)

/-- C8: the transport layer's response classification — non-2xx HTTP status →
`httpError` with status code and text; non-empty top-level errors list (even
with HTTP 200) → `graphQLError` with the joined messages; no data and no
errors → `protocolError`; only a response with a data payload and no errors
succeeds. -/
theorem claim_c8_error_classification {α : Type} (resp : HttpResponse α) :
    (resp.ok = false →
      classifyResponse resp
        = Except.error (QueryError.httpError resp.status resp.statusText))
    ∧ (resp.ok = true → resp.errors ≠ [] →
      classifyResponse resp
        = Except.error (QueryError.graphQLError
            ("GraphQL errors: " ++ String.intercalate (", ") resp.errors)))
    ∧ (resp.ok = true → resp.errors = [] → resp.data = none →
      classifyResponse resp
        = Except.error (QueryError.protocolError
            ("No data returned from GraphQL query")))
    ∧ (∀ d, resp.ok = true → resp.errors = [] → resp.data = some d →
      classifyResponse resp = Except.ok d) := by
  refine ⟨fun h => by simp [classifyResponse, h], fun h1 h2 => ?_,
    fun h1 h2 h3 => by simp [classifyResponse, h1, h2, h3],
    fun d h1 h2 h3 => by simp [classifyResponse, h1, h2, h3]⟩
  have he : resp.errors.isEmpty = false := by
    cases hE : resp.errors
    · exact absurd hE h2
    · rfl
  simp [classifyResponse, h1, he]

theorem claim_c8_error_classification_witness :
    (classifyResponse (⟨false, 500, ("Internal Server Error"), none, []⟩ : HttpResponse Nat)
      = Except.error (QueryError.httpError 500 ("Internal Server Error")))
    ∧ (classifyResponse (⟨true, 200, ("OK"), some 1, [("boom")]⟩ : HttpResponse Nat)
      = Except.error (QueryError.graphQLError
          ("GraphQL errors: " ++ String.intercalate (", ") [("boom")])))
    ∧ (classifyResponse (⟨true, 200, ("OK"), none, []⟩ : HttpResponse Nat)
      = Except.error (QueryError.protocolError ("No data returned from GraphQL query")))
    ∧ (classifyResponse (⟨true, 200, ("OK"), some 7, []⟩ : HttpResponse Nat)
      = Except.ok 7) :=
  ⟨(claim_c8_error_classification _).1 rfl,
    (claim_c8_error_classification _).2.1 rfl (by decide),
    (claim_c8_error_classification _).2.2.1 rfl rfl rfl,
    (claim_c8_error_classification _).2.2.2 7 rfl rfl rfl⟩

/-- C6: item-level failures are isolated to the failing item.  For a batch of
3 items whose second fails schema validation (and a store that always
writes), the other two payloads are stored, exactly one item is counted and
logged as skipped-due-to-error (the source counts it in `errorCount` and logs
the `warn` line `Skipping item due to error: ...`; the `skippedCount` counter
is reserved for digest-unchanged items and stays 0), and `load` returns
normally — no exception escapes the batch. -/
theorem claim_c6_item_isolation {Raw Val : Type} (collection : String)
    (transformItem : Raw → Except String Val)
    (validate : Val → Except String Val) (generateIdOf : Raw → String)
    (storeSet : String → Val → Bool) (i1 i2 i3 : Raw)
    (id1 id3 : String) (v1 v3 : Val) (m : String)
    (h1 : processItem transformItem validate generateIdOf i1 = Except.ok (id1, v1))
    (h2 : processItem transformItem validate generateIdOf i2
      = Except.error (ItemError.validationError m))
    (h3 : processItem transformItem validate generateIdOf i3 = Except.ok (id3, v3))
    (hs : ∀ id v, storeSet id v = true) :
    (loadModel collection transformItem validate generateIdOf storeSet
        (Except.ok [i1, i2, i3])).fatalFetch = false
    ∧ (loadModel collection transformItem validate generateIdOf storeSet
        (Except.ok [i1, i2, i3])).processedCount = 2
    ∧ (loadModel collection transformItem validate generateIdOf storeSet
        (Except.ok [i1, i2, i3])).skippedCount = 0
    ∧ (loadModel collection transformItem validate generateIdOf storeSet
        (Except.ok [i1, i2, i3])).errorCount = 1
    ∧ (loadModel collection transformItem validate generateIdOf storeSet
        (Except.ok [i1, i2, i3])).stored = [v1, v3]
    ∧ (LogLevel.warn,
        "Skipping item due to error: " ++ ItemError.message (ItemError.validationError m))
        ∈ (loadModel collection transformItem validate generateIdOf storeSet
            (Except.ok [i1, i2, i3])).logs := by
  simp [loadModel, h1, h2, h3, hs]

theorem claim_c6_item_isolation_witness :
    (loadModel ("posts") Except.ok
        (fun n => if n = 2 then Except.error ("bad") else Except.ok n)
        (fun n => toString n) (fun _ _ => true)
        (Except.ok [1, 2, 3])).fatalFetch = false
    ∧ (loadModel ("posts") Except.ok
        (fun n => if n = 2 then Except.error ("bad") else Except.ok n)
        (fun n => toString n) (fun _ _ => true)
        (Except.ok [1, 2, 3])).processedCount = 2
    ∧ (loadModel ("posts") Except.ok
        (fun n => if n = 2 then Except.error ("bad") else Except.ok n)
        (fun n => toString n) (fun _ _ => true)
        (Except.ok [1, 2, 3])).skippedCount = 0
    ∧ (loadModel ("posts") Except.ok
        (fun n => if n = 2 then Except.error ("bad") else Except.ok n)
        (fun n => toString n) (fun _ _ => true)
        (Except.ok [1, 2, 3])).errorCount = 1
    ∧ (loadModel ("posts") Except.ok
        (fun n => if n = 2 then Except.error ("bad") else Except.ok n)
        (fun n => toString n) (fun _ _ => true)
        (Except.ok [1, 2, 3])).stored = [1, 3]
    ∧ (LogLevel.warn,
        "Skipping item due to error: " ++ ItemError.message (ItemError.validationError ("bad")))
        ∈ (loadModel ("posts") Except.ok
            (fun n => if n = 2 then Except.error ("bad") else Except.ok n)
            (fun n => toString n) (fun _ _ => true)
            (Except.ok [1, 2, 3])).logs :=
  claim_c6_item_isolation ("posts") Except.ok
    (fun n => if n = 2 then Except.error ("bad") else Except.ok n)
    (fun n => toString n) (fun _ _ => true) 1 2 3 ("1") ("3") 1 3 ("bad")
    rfl rfl rfl (fun _ _ => rfl)

/-- C7: a fatal top-level `fetchData` failure is caught by `safeFetch`, the
failure is logged at `error` severity, and the load cycle returns normally
with zero items processed and nothing stored — the host process is never
crashed.  (All other collaborators of the embedded `load` are total, so this
is the only failure path of a cycle, matching "never throws except on a fatal
top-level fetch failure" — which itself is logged and returned.) -/
theorem claim_c7_fatal_fetch_isolated {Raw Val : Type} (collection : String)
    (transformItem : Raw → Except String Val)
    (validate : Val → Except String Val) (generateIdOf : Raw → String)
    (storeSet : String → Val → Bool) (msg : String) :
    loadModel collection transformItem validate generateIdOf storeSet
        (Except.error msg)
      = ⟨true, 0, 0, 0, [],
          [(LogLevel.info, "Loading " ++ collection ++ " from Hashnode..."),
            (LogLevel.error,
              "Failed to fetch " ++ collection ++ ": Failed to fetch data: " ++ msg)]⟩ :=
  rfl

/-- C9 counterexample: the base and posts id derivations cited by the claim
have no content-derived hash fallback — for an item carrying none of
id/cuid/slug they evaluate to `undefined` (`none`), not a defined string. -/
theorem claim_c9_counterexample :
    baseGenerateId ⟨none, none, none, none, none⟩ = none
    ∧ postsGenerateId ⟨none, none, none, none, none⟩ = none := by
  exact ⟨rfl, rfl⟩

/-- C9 (amended): the base and posts id generators are deterministic pure
fallback chains (`id → cuid → slug`, resp. `slug → cuid → id`) with no hash
fallback — they produce a truthy (defined, non-empty) string exactly when one
of those fields is truthy; only the drafts loader's id generator carries the
content-hash fallback and always produces a defined string prefixed
`draft-`. -/
theorem claim_c9_amended (item : RawContentItem) (nowIso : String) :
    jsTruthy (baseGenerateId item)
        = (jsTruthy item.id || jsTruthy item.cuid || jsTruthy item.slug)
    ∧ jsTruthy (postsGenerateId item)
        = (jsTruthy item.slug || jsTruthy item.cuid || jsTruthy item.id)
    ∧ ∃ s, draftsGenerateId item nowIso = "draft-" ++ s := by
  refine ⟨?_, ?_, ?_⟩
  · cases h1 : jsTruthy item.id <;> cases h2 : jsTruthy item.cuid <;>
      simp [baseGenerateId, jsOrStr, h1, h2]
  · cases h1 : jsTruthy item.slug <;> cases h2 : jsTruthy item.cuid <;>
      simp [postsGenerateId, jsOrStr, h1, h2]
  · by_cases ht : jsTruthy (jsOrStr item.id (jsOrStr item.cuid item.slug))
    · exact ⟨(jsOrStr item.id (jsOrStr item.cuid item.slug)).getD "",
        by simp [draftsGenerateId, ht]⟩
    · exact ⟨simpleHash
        ((jsOrStr item.title (some ("untitled"))).getD ""
          ++ "-" ++ (jsOrStr item.updatedAt (some nowIso)).getD ""),
        by simp [draftsGenerateId, ht]⟩

/-- C5 counterexample: both terms `xx` and `ban` match the same post `p1`,
and the aggregator's final result keeps the SECOND term's occurrence (`ban`,
whose title match also scores 10) — not the first (`xx`, scoring 0): the JS
`Map` constructor overwrites the value on a duplicate key, so the collapse is
last-wins, refuting the claimed first-seen-wins retention of term and
relevance. -/
theorem claim_c5_counterexample :
    searchFetchData bananaServer [("xx"), ("ban")] none 4
      = [⟨bananaPost, ("ban")⟩]
    ∧ ¬(searchFetchData bananaServer [("xx"), ("ban")] none 4
          = [⟨bananaPost, ("xx")⟩]) := by
  decide

theorem find?_replaceAll {β : Type} (m : List (String × β)) (k : String) (v : β)
    (hany : m.any (fun p => p.1 == k) = true) :
    (m.map (fun p => if p.1 == k then (k, v) else p)).find? (fun p => p.1 == k)
      = some (k, v) := by
  induction m with
  | nil => simp at hany
  | cons p m ih =>
    by_cases hp : (p.1 == k) = true
    · rw [List.map_cons, if_pos hp]
      simp [List.find?_cons, beq_self_eq_true]
    · have hany' : m.any (fun p => p.1 == k) = true := by
        simpa [List.any_cons, hp] using hany
      rw [List.map_cons, if_neg hp]
      simp only [List.find?_cons, hp, cond_false]
      exact ih hany'

theorem find?_replace_ne {β : Type} (m : List (String × β)) (k : String)
    (v : β) (k' : String) (h : (k == k') = false) :
    (m.map (fun p => if p.1 == k then (k, v) else p)).find? (fun p => p.1 == k')
      = m.find? (fun p => p.1 == k') := by
  induction m with
  | nil => rfl
  | cons p m ih =>
    by_cases hp : (p.1 == k) = true
    · have hpk : p.1 = k := eq_of_beq hp
      have hp' : (p.1 == k') = false := by rw [hpk]; exact h
      rw [List.map_cons, if_pos hp]
      simp only [List.find?_cons, h, hp', cond_false]
      exact ih
    · rw [List.map_cons, if_neg hp]
      by_cases hk' : (p.1 == k') = true
      · simp only [List.find?_cons, hk', cond_true]
      · simp only [List.find?_cons, Bool.of_not_eq_true hk', cond_false]
        exact ih

theorem find?_jsMapInsert {β : Type} (m : List (String × β)) (k : String)
    (v : β) (k' : String) :
    (jsMapInsert m k v).find? (fun p => p.1 == k')
      = if k = k' then some (k, v) else m.find? (fun p => p.1 == k') := by
  unfold jsMapInsert
  by_cases hany : m.any (fun p => p.1 == k) = true
  · rw [if_pos hany]
    by_cases hk : k = k'
    · subst hk
      rw [if_pos rfl]
      exact find?_replaceAll m k v hany
    · rw [if_neg hk]
      exact find?_replace_ne m k v k' (beq_eq_false_iff_ne.mpr hk)
  · rw [if_neg hany, List.find?_append]
    by_cases hk : k = k'
    · subst hk
      have hm : m.find? (fun p => p.1 == k) = none := by
        rw [List.find?_eq_none]
        intro x hx hpx
        exact hany (List.any_eq_true.mpr ⟨x, hx, hpx⟩)
      rw [if_pos rfl, hm]
      simp [List.find?_cons, beq_self_eq_true]
    · rw [if_neg hk]
      have hone : ([(k, v)] : List (String × β)).find? (fun p => p.1 == k') = none := by
        simp [List.find?_cons, beq_eq_false_iff_ne.mpr hk]
      rw [hone]
      exact Option.or_none

theorem find?_jsMapCollapse {β : Type} (l : List (String × β)) (k : String) :
    (jsMapCollapse l).find? (fun p => p.1 == k)
      = l.reverse.find? (fun p => p.1 == k) := by
  suffices h : ∀ m : List (String × β),
      (l.foldl (fun m p => jsMapInsert m p.1 p.2) m).find? (fun p => p.1 == k)
        = (l.reverse.find? (fun p => p.1 == k)).or
            (m.find? (fun p => p.1 == k)) by
    have h0 := h []
    simpa [jsMapCollapse, List.find?] using h0
  induction l with
  | nil => intro m; simp
  | cons p l ih =>
    intro m
    rw [List.foldl_cons, ih (jsMapInsert m p.1 p.2), find?_jsMapInsert,
      List.reverse_cons, List.find?_append]
    cases hrev : l.reverse.find? (fun q => q.1 == k) with
    | some x => rfl
    | none =>
      show (if p.1 = k then some (p.1, p.2) else m.find? (fun q => q.1 == k))
        = (([p].find? (fun q => q.1 == k)).or (m.find? (fun q => q.1 == k)))
      by_cases hp : p.1 = k
      · rw [if_pos hp]
        have hfind : ([p].find? (fun q => q.1 == k)) = some p := by
          simp [List.find?_cons, beq_iff_eq.mpr hp]
        rw [hfind]
        show some (p.1, p.2) = some p
        rw [Prod.mk.eta]
      · rw [if_neg hp]
        have hfind : ([p].find? (fun q => q.1 == k)) = none := by
          simp [List.find?_cons, beq_eq_false_iff_ne.mpr hp]
        rw [hfind]
        rfl

theorem keys_jsMapInsert {β : Type} (m : List (String × β)) (k : String) (v : β) :
    (jsMapInsert m k v).map (fun p => p.1)
      = if m.any (fun p => p.1 == k) = true then m.map (fun p => p.1)
        else m.map (fun p => p.1) ++ [k] := by
  unfold jsMapInsert
  by_cases hany : m.any (fun p => p.1 == k) = true
  · rw [if_pos hany, if_pos hany, List.map_map]
    apply List.map_congr_left
    intro p _
    by_cases hp : (p.1 == k) = true
    · show (if p.1 == k then (k, v) else p).1 = p.1
      rw [if_pos hp]
      exact (eq_of_beq hp).symm
    · show (if p.1 == k then (k, v) else p).1 = p.1
      rw [if_neg hp]
  · rw [if_neg hany, if_neg hany, List.map_append]
    rfl

theorem nodup_keys_jsMapCollapse {β : Type} (l : List (String × β)) :
    ((jsMapCollapse l).map (fun p => p.1)).Nodup := by
  suffices h : ∀ m : List (String × β), (m.map (fun p => p.1)).Nodup →
      ((l.foldl (fun m p => jsMapInsert m p.1 p.2) m).map (fun p => p.1)).Nodup by
    exact h [] (by simp)
  induction l with
  | nil => intro m hm; simpa using hm
  | cons p l ih =>
    intro m hm
    rw [List.foldl_cons]
    apply ih
    rw [keys_jsMapInsert]
    by_cases hany : m.any (fun q => q.1 == p.1) = true
    · rw [if_pos hany]; exact hm
    · rw [if_neg hany]
      have hk : p.1 ∉ m.map (fun q => q.1) := by
        intro hmem
        rcases List.mem_map.mp hmem with ⟨q, hq, hq1⟩
        exact hany (List.any_eq_true.mpr ⟨q, hq, beq_iff_eq.mpr hq1⟩)
      exact hm.append (List.nodup_singleton _)
        (fun a ha hb => hk ((List.mem_singleton.mp hb) ▸ ha))

theorem jsMapCollapse_pairs_inv (l : List SearchItem) :
    ∀ p ∈ jsMapCollapse (l.map (fun r => (r.post.id, r))), p.1 = p.2.post.id := by
  suffices h : ∀ (pairs : List (String × SearchItem)),
      (∀ p ∈ pairs, p.1 = p.2.post.id) →
      ∀ (m : List (String × SearchItem)), (∀ p ∈ m, p.1 = p.2.post.id) →
      ∀ p ∈ pairs.foldl (fun m p => jsMapInsert m p.1 p.2) m, p.1 = p.2.post.id by
    refine h (l.map (fun r => (r.post.id, r))) ?_ [] (by simp)
    intro p hp
    rcases List.mem_map.mp hp with ⟨r, _, rfl⟩
    rfl
  intro pairs
  induction pairs with
  | nil => intro _ m hm p hp; exact hm p hp
  | cons q pairs ih =>
    intro hpairs m hm
    rw [List.foldl_cons]
    refine ih (fun p hp => hpairs p (List.mem_cons_of_mem _ hp)) _ ?_
    intro p hp
    unfold jsMapInsert at hp
    by_cases hany : m.any (fun p => p.1 == q.1) = true
    · rw [if_pos hany] at hp
      rcases List.mem_map.mp hp with ⟨p0, hp0, rfl⟩
      by_cases hq : (p0.1 == q.1) = true
      · show (if p0.1 == q.1 then (q.1, q.2) else p0).1
          = (if p0.1 == q.1 then (q.1, q.2) else p0).2.post.id
        rw [if_pos hq]
        exact hpairs q (List.mem_cons_self _ _)
      · show (if p0.1 == q.1 then (q.1, q.2) else p0).1
          = (if p0.1 == q.1 then (q.1, q.2) else p0).2.post.id
        rw [if_neg hq]
        exact hm p0 hp0
    · rw [if_neg hany] at hp
      rcases List.mem_append.mp hp with hp | hp
      · exact hm p hp
      · rw [List.mem_singleton.mp hp]
        exact hpairs q (List.mem_cons_self _ _)

theorem find?_map_snd_of_inv (m : List (String × SearchItem))
    (hinv : ∀ p ∈ m, p.1 = p.2.post.id) (k : String) :
    (m.map (fun p => p.2)).find? (fun r => r.post.id == k)
      = (m.find? (fun p => p.1 == k)).map (fun p => p.2) := by
  induction m with
  | nil => rfl
  | cons p m ih =>
    have hp1 := hinv p (List.mem_cons_self _ _)
    rw [List.map_cons]
    by_cases hk : (p.2.post.id == k) = true
    · have hk' : (p.1 == k) = true := by rw [hp1]; exact hk
      simp only [List.find?_cons, hk, hk', cond_true]
      rfl
    · have hk' : (p.1 == k) = false := by
        rw [hp1]; exact Bool.of_not_eq_true hk
      simp only [List.find?_cons, Bool.of_not_eq_true hk, hk', cond_false]
      exact ih (fun q hq => hinv q (List.mem_cons_of_mem _ hq))

/-- C5 (amended): the aggregator's deduplication-by-id step keeps each post
id exactly once (the id list of the deduplicated result has no duplicates,
and an id is found there exactly when the merged list contains it), but the
surviving entry is the LAST-seen occurrence in term iteration order — JS
`Map` overwrites the value on a duplicate key — so the retained term and
relevance are the last matching term's, not the first's. -/
theorem claim_c5_amended (l : List SearchItem) (k : String) :
    ((searchDedup l).map (fun r => r.post.id)).Nodup
    ∧ (searchDedup l).find? (fun r => r.post.id == k)
      = l.reverse.find? (fun r => r.post.id == k) := by
  constructor
  · have hinv := jsMapCollapse_pairs_inv l
    have hkeys := nodup_keys_jsMapCollapse (l.map (fun r => (r.post.id, r)))
    have heq : (searchDedup l).map (fun r => r.post.id)
        = (jsMapCollapse (l.map (fun r => (r.post.id, r)))).map (fun p => p.1) := by
      unfold searchDedup
      rw [List.map_map]
      exact List.map_congr_left (fun p hp => (hinv p hp).symm)
    rw [heq]
    exact hkeys
  · unfold searchDedup
    rw [find?_map_snd_of_inv _ (jsMapCollapse_pairs_inv l) k, find?_jsMapCollapse,
      ← List.map_reverse, List.find?_map]
    show ((l.reverse.find?
        ((fun p => p.1 == k) ∘ fun r => (r.post.id, r))).map
          (fun r => (r.post.id, r))).map (fun p => p.2)
      = l.reverse.find? (fun r => r.post.id == k)
    rw [Option.map_map]
    have hcomp : ((fun p : String × SearchItem => p.1 == k)
        ∘ fun r => (r.post.id, r)) = fun r => r.post.id == k := rfl
    rw [hcomp]
    cases l.reverse.find? (fun r => r.post.id == k) with
    | none => rfl
    | some x => rfl
